import Mathlib

/-!
Shallow embedding of `check_domain_expiration_rdap.py`.

The script resolves the expiration date of a domain through RDAP.  The
embedding models Python values (`PyVal`), Python exceptions (`PyErr`,
distinguishing the classified `nagiosplugin.CheckError` raises from
unclassified exceptions such as `IndexError` or `AttributeError`), the
HTTP layer as a function from URL to response, and the current time as a
parameter `nowSec` (seconds since 0001-01-01 00:00:00, matching the
proleptic Gregorian ordinal used by the Python `datetime` module, at
one-second resolution).  Each function mirrors the source function of the
same name; the query log returned alongside results records the RDAP
domain lookups that were issued.
-/

namespace CheckDomain

/-- Model of the Python values flowing through the script (JSON data,
strings, the `False` placeholder, computed day counts). -/
inductive PyVal where
  | vNone
  | vBool (b : Bool)
  | vInt (n : Int)
  | vStr (s : String)
  | vList (l : List PyVal)
  | vDict (d : List (String × PyVal))

/-- Model of the Python exceptions the script can raise.
`checkError` is the classified `nagiosplugin.CheckError`; the others are
unclassified built-in exceptions. -/
inductive PyErr where
  | checkError (msg : String)
  | indexError
  | typeError
  | attributeError
  | valueError
deriving Repr, DecidableEq

/-- An HTTP response: status code and the JSON-decoded body. -/
structure HResp where
  status : Nat
  body : PyVal

/-- Python `str.split(sep)` on a single-character separator, over char
lists: splits at every occurrence, keeping empty pieces. -/
def splitOnCharL (sep : Char) : List Char → List (List Char)
  | [] => [[]]
  | c :: rest =>
    if c == sep then [] :: splitOnCharL sep rest
    else
      match splitOnCharL sep rest with
      | [] => [[c]]
      | g :: gs => (c :: g) :: gs

/-- Joining with a single-character separator (inverse of splitting). -/
def joinChar (sep : Char) : List (List Char) → List Char
  | [] => []
  | [g] => g
  | g :: gs => g ++ sep :: joinChar sep gs

/-- Python `s.split(sep)` returning strings. -/
def pySplit (s : String) (sep : Char) : List String :=
  (splitOnCharL sep s.data).map String.mk

/-- Python `str.lower()` (ASCII case folding; the registrar names the
script compares are ASCII). -/
def pyLower (s : String) : String :=
  ⟨s.data.map Char.toLower⟩

/-- Python `v == s` for a string literal `s`: true only when `v` is an
equal string (no cross-type coercion between `str` and other types). -/
def pyEqStr (v : PyVal) (s : String) : Bool :=
  match v with
  | .vStr t => t == s
  | _ => false

/-- Substring test on char lists (Python `needle in haystack` for `str`). -/
def leadsWith : List Char → List Char → Bool
  | [], _ => true
  | _ :: _, [] => false
  | a :: as, b :: bs => a == b && leadsWith as bs

/-- Whether `needle` occurs as a contiguous substring of the list. -/
def hasSub (needle : List Char) : List Char → Bool
  | [] => needle.isEmpty
  | c :: rest => leadsWith needle (c :: rest) || hasSub needle rest

/-- Python `d.get(key, dflt)`: returns the value for `key` in a dict,
the default when absent, and raises `AttributeError` when the receiver
is not a dict. -/
def pyGetD (v : PyVal) (key : String) (dflt : PyVal) : Except PyErr PyVal :=
  match v with
  | .vDict d =>
    match d.find? (fun p => p.1 == key) with
    | some p => pure p.2
    | none => pure dflt
  | _ => .error .attributeError

/-- Python iteration `for x in v`: lists yield elements, dicts yield
their keys, strings yield one-character strings; other values raise
`TypeError`. -/
def pyIterList : PyVal → Except PyErr (List PyVal)
  | .vList l => pure l
  | .vDict d => pure (d.map (fun p => .vStr p.1))
  | .vStr s => pure (s.data.map (fun c => .vStr ⟨[c]⟩))
  | _ => .error .typeError

/-- Python membership `needle in container` for a string needle:
element equality for lists, key lookup for dicts, substring test for
strings; `in None` (and other non-containers) raises `TypeError`. -/
def pyContains (needle : String) (container : PyVal) : Except PyErr Bool :=
  match container with
  | .vList l => pure (l.any (fun x => pyEqStr x needle))
  | .vDict d => pure (d.any (fun p => p.1 == needle))
  | .vStr s => pure (hasSub needle.data s.data)
  | _ => .error .typeError

/-- Python `v[i]` for a nonnegative index: list/string indexing with
`IndexError` out of range, `TypeError` on non-subscriptable values. -/
def pyIndex (v : PyVal) (i : Nat) : Except PyErr PyVal :=
  match v with
  | .vList l =>
    match l[i]? with
    | some x => pure x
    | none => .error .indexError
  | .vStr s =>
    match s.data[i]? with
    | some c => pure (.vStr ⟨[c]⟩)
    | none => .error .indexError
  | _ => .error .typeError

/-- Python `isinstance(v, int)`: true for ints and bools (bool is a
subclass of int). -/
def isIntPy : PyVal → Bool
  | .vInt _ => true
  | .vBool _ => true
  | _ => false

/-- Python `isinstance(v, str)`. -/
def isStrPy : PyVal → Bool
  | .vStr _ => true
  | _ => false

/-- Tests whether an Except result is the classified
`nagiosplugin.CheckError` (as opposed to an unclassified exception). -/
def isCheckError {α : Type} : Except PyErr α → Bool
  | .error (.checkError _) => true
  | _ => false

/-- Fueled rendering of a `PyVal` in the style of Python `repr` (used
inside f-string error messages); the fuel bounds list/dict nesting and
is ample for every value the script builds. -/
def pyReprFuel : Nat → PyVal → String
  | _, .vNone => "None"
  | _, .vBool b => if b then "True" else "False"
  | _, .vInt n => toString n
  | _, .vStr s => "\x27" ++ s ++ "\x27"
  | 0, .vList _ => "[...]"
  | 0, .vDict _ => "\x7b...\x7d"
  | fuel + 1, .vList l => "[" ++ commaJoin ((l.map (pyReprFuel fuel))) ++ "]"
  | fuel + 1, .vDict d =>
    "\x7b" ++ commaJoin (d.map (fun p => "\x27" ++ p.1 ++ "\x27: " ++ pyReprFuel fuel p.2)) ++ "\x7d"
where
  /-- Comma-separated concatenation. -/
  commaJoin : List String → String
    | [] => ""
    | [s] => s
    | s :: rest => s ++ ", " ++ commaJoin rest

/-- Python `str(v)` as used by f-string interpolation: strings render
bare, containers render via `repr` of their elements. -/
def pyStr : PyVal → String
  | .vStr s => s
  | v => pyReprFuel 100 v

/-! ### Calendar model (Python `datetime`)

`datetime.datetime.strptime(fecha, percent-Y-m-d)` yields midnight of a
proleptic Gregorian date; subtracting two datetimes yields a timedelta
whose `days` attribute is the floor of the difference in days.  We model
instants as seconds, with second 0 at 0001-01-01 00:00:00 so that
midnight of a date sits at `toordinal y m d * 86400`, exactly matching
the `date.toordinal` arithmetic the Python library performs. -/

/-- Gregorian leap-year test. -/
def isLeap (y : Nat) : Bool :=
  (y % 4 == 0 && y % 100 != 0) || y % 400 == 0

/-- Number of days in a month (CPython `_days_in_month`). -/
def daysInMonth (y m : Nat) : Nat :=
  if m == 2 then (if isLeap y then 29 else 28)
  else if m == 4 || m == 6 || m == 9 || m == 11 then 30
  else 31

/-- Days in the year strictly before month `m` (CPython
`_days_before_month`). -/
def daysBeforeMonth (y m : Nat) : Nat :=
  (match m with
   | 1 => 0 | 2 => 31 | 3 => 59 | 4 => 90 | 5 => 120 | 6 => 151
   | 7 => 181 | 8 => 212 | 9 => 243 | 10 => 273 | 11 => 304 | _ => 334)
  + (if 2 < m && isLeap y then 1 else 0)

/-- Days before January 1st of year `y` (CPython `_days_before_year`). -/
def daysBeforeYear (y : Nat) : Nat :=
  (y - 1) * 365 + (y - 1) / 4 - (y - 1) / 100 + (y - 1) / 400

/-- Proleptic Gregorian ordinal of a date (CPython `date.toordinal`,
with 0001-01-01 having ordinal 1). -/
def toordinal (y m d : Nat) : Nat :=
  daysBeforeYear y + daysBeforeMonth y m + d

/-- Reads a nonempty all-digit string as a number. -/
def digitsToNat? (s : List Char) : Option Nat :=
  if s.isEmpty then none
  else if s.all Char.isDigit then
    some (s.foldl (fun a c => a * 10 + (c.toNat - 48)) 0)
  else none

/-- Python `datetime.datetime.strptime(s, percent-Y-m-d)`: parses a
dash-separated year-month-day with range validation; a malformed string
raises `ValueError`. -/
def strptimeYmd (s : String) : Except PyErr (Nat × Nat × Nat) :=
  match (splitOnCharL '-' s.data).map digitsToNat? with
  | [some y, some m, some d] =>
    if 1 ≤ y && y ≤ 9999 && 1 ≤ m && m ≤ 12 && 1 ≤ d && d ≤ daysInMonth y m then
      pure (y, m, d)
    else .error .valueError
  | _ => .error .valueError

/-! ### The script functions -/

/-- URL of the RDAP domain lookup issued by `parse_ldap`
(`requests.get(f-string rdap_server domain/ domain)`). -/
def rdapUrl (rdap_server domain : String) : String :=
  rdap_server ++ "domain/" ++ domain

/-- Message of the classified 403 failure in `parse_ldap`. -/
def msg403 (rdap_server : String) : String :=
  "Got 403, the RDAP server " ++ rdap_server ++ " refused to reply"

/-- Message of the classified 404 failure in `parse_ldap`. -/
def msg404 (domain : String) : String :=
  "Got 404, the domain " ++ domain ++ " has not been found"

/-- Message of the classified 409 failure in `parse_ldap`. -/
def msg409 (rdap_server : String) : String :=
  "Got 409, the RDAP server " ++ rdap_server ++ " has too many requests"

/-- Message of the classified 503 failure in `parse_ldap`. -/
def msg503 (rdap_server : String) : String :=
  "Got 503, the RDAP server " ++ rdap_server ++ " seems broken"

/-- The list comprehension of lines 73-77: one pass over the events,
keeping `event.get(eventDate, False)` for each event whose
`eventAction` equals the string expiration. -/
def collectExpirations : List PyVal → Except PyErr (List PyVal)
  | [] => pure []
  | e :: rest => do
    let action ← pyGetD e "eventAction" (.vDict [])
    if pyEqStr action "expiration" then
      let d ← pyGetD e "eventDate" (.vBool false)
      let tail ← collectExpirations rest
      pure (d :: tail)
    else collectExpirations rest

/-- The list comprehension of lines 82-86: one pass over the entities,
keeping `entity.get(vcardArray, False)` for each entity whose `roles`
contains the string registrar (`entity.get(roles)` defaults to `None`,
so an entity without roles raises `TypeError`). -/
def collectRegistrars : List PyVal → Except PyErr (List PyVal)
  | [] => pure []
  | ent :: rest => do
    let roles ← pyGetD ent "roles" .vNone
    let b ← pyContains "registrar" roles
    if b then
      let v ← pyGetD ent "vcardArray" (.vBool false)
      let tail ← collectRegistrars rest
      pure (v :: tail)
    else collectRegistrars rest

/-- The loop of lines 91-93: over the lines of the first registrar
vCard, append `line[3]` whenever the string fn occurs in `line`. -/
def fnLoop : List PyVal → Except PyErr (List PyVal)
  | [] => pure []
  | line :: rest => do
    let b ← pyContains "fn" line
    if b then
      let x ← pyIndex line 3
      let tail ← fnLoop rest
      pure (x :: tail)
    else fnLoop rest

/-- Lines 73-77 including the `req_rdap.json().get(events, ...)` access:
the collected `raw_expiration` list for a response body. -/
def rawExpirationOf (body : PyVal) : Except PyErr (List PyVal) := do
  let events ← pyGetD body "events" (.vDict [])
  let evl ← pyIterList events
  collectExpirations evl

/-- Lines 82-86 including the `req_rdap.json().get(entities, ...)`
access: the collected `raw_registrar` list for a response body. -/
def rawRegistrarOf (body : PyVal) : Except PyErr (List PyVal) := do
  let entities ← pyGetD body "entities" (.vDict [])
  let enl ← pyIterList entities
  collectRegistrars enl

/-- `raw_expiration[0].split(T)[0]`: the date part of the event date;
`AttributeError` when the collected value is not a string (in
particular for the `False` placeholder of a missing `eventDate`). -/
def splitDateT (v : PyVal) : Except PyErr String :=
  match v with
  | .vStr s => pure ((pySplit s 'T').headD "")
  | _ => .error .attributeError

/-- Lines 71-106 of `parse_ldap` after the status-code match: collect
the expiration events and branch on how many were found, mirroring the
`len(raw_expiration)` cases of the source. -/
def parse_ldap_body (nowSec : Int) (body : PyVal) : Except PyErr (List PyVal) := do
  let raw_expiration ← rawExpirationOf body
  match raw_expiration with
  | [] => do
    let raw_registrar ← rawRegistrarOf body
    let r0 ← match raw_registrar[0]? with
             | some x => pure x
             | none => Except.error PyErr.indexError
    let vc1 ← pyIndex r0 1
    let lines ← pyIterList vc1
    fnLoop lines
  | [d0] => do
    let fecha ← splitDateT d0
    let ymd ← strptimeYmd fecha
    let expSec : Int := (toordinal ymd.1 ymd.2.1 ymd.2.2 : Int) * 86400
    pure [.vInt (Int.fdiv (expSec - nowSec) 86400)]
  | l => .error (.checkError (pyStr (.vList l) ++ " is too long"))

/-- `parse_ldap(domain, rdap_server)`: one GET against
`rdap_server ++ domain/ ++ domain`, the status-code classification of
lines 51-69, then the body handling; also returns the list of RDAP
domain queries issued (always exactly this one). -/
def parse_ldap (http : String → HResp) (nowSec : Int)
    (domain rdap_server : String) : Except PyErr (List PyVal) × List String :=
  let url := rdapUrl rdap_server domain
  let resp := http url
  let res : Except PyErr (List PyVal) :=
    if resp.status == 403 then .error (.checkError (msg403 rdap_server))
    else if resp.status == 404 then .error (.checkError (msg404 domain))
    else if resp.status == 409 then .error (.checkError (msg409 rdap_server))
    else if resp.status == 503 then .error (.checkError (msg503 rdap_server))
    else parse_ldap_body nowSec resp.body
  (res, [url])

/-- The inner loops of `find_rdap_server` (lines 26-30): flattens the
bootstrap `services` pairs into name/url records, reading `v[0]` for
each TLD label (an empty url list raises `IndexError` once a label is
processed). -/
def buildList2dict : List (List String × List String) →
    Except PyErr (List (String × String))
  | [] => pure []
  | (k, v) :: rest => do
    let entries ← k.mapM (fun x =>
      match v with
      | [] => Except.error PyErr.indexError
      | u :: _ => Except.ok (x, u))
    let tail ← buildList2dict rest
    pure (entries ++ tail)

/-- `domain.split(.)[-1]`: the rightmost dot-separated label. -/
def tldOf (domain : String) : String :=
  (pySplit domain '.').getLastD ""

/-- Message of the classified failure when the TLD has no RDAP server. -/
def msgNoTld (tld : String) : String :=
  "The TLD " ++ tld ++ " does not have an RDAP server"

/-- `find_rdap_server(domain)`: builds the flattened bootstrap mapping
from the parsed `dns.json` services list, extracts the rightmost label
and returns the url of the first matching record
(`df[df.name == tld].iloc[0].url`); no match raises the classified
no-RDAP-server failure.  When the flattened record list is empty, the
`pandas.DataFrame` built from it has no name column, so the `df.name`
access on line 36 raises an `AttributeError` that the
`except IndexError` of line 38 does not catch. -/
def find_rdap_server (services : List (List String × List String))
    (domain : String) : Except PyErr String := do
  let list2dict ← buildList2dict services
  match list2dict with
  | [] => .error .attributeError
  | _ :: _ =>
    let tld := tldOf domain
    match list2dict.find? (fun e => e.1 == tld) with
    | some e => pure e.2
    | none => .error (.checkError (msgNoTld tld))

/-- Message of the classified failure when the registrar RDAP record
also lacks expiration data (line 140). -/
def msgNeither (url : String) : String :=
  "Neither TLD or " ++ url ++ " have expiration data"

/-- The CSV loop of lines 126-145 of `expiration`: scans the registrar
rows in order; `registrar_row[1]` on a short row raises `IndexError`;
the first row whose second field equals the registrar name
case-insensitively triggers the single fallback query `parse_ldap`
against `registrar_row[3]` with the original domain; when no row
matches, the raise on line 143 evaluates
`iana_registrars_csv.url` on a `str` and therefore raises
`AttributeError` instead of the intended classified failure. -/
def registrarScan (http : String → HResp) (nowSec : Int)
    (domain name : String) :
    List (List String) → Except PyErr PyVal × List String
  | [] => (.error .attributeError, [])
  | row :: rest =>
    match row[1]? with
    | none => (.error .indexError, [])
    | some field1 =>
      if pyLower field1 == pyLower name then
        match row[3]? with
        | none => (.error .indexError, [])
        | some url =>
          let q := parse_ldap http nowSec domain url
          match q.1 with
          | .error e => (.error e, q.2)
          | .ok l =>
            match l[0]? with
            | none => (.error .indexError, q.2)
            | some x =>
              if isIntPy x then (.ok x, q.2)
              else (.error (.checkError (msgNeither url)), q.2)
      else registrarScan http nowSec domain name rest

/-- Message of the classified failure when the first collected value
has an unexpected type (line 148). -/
def msgBadFormat (v : PyVal) : String :=
  "Error while parsing the JSON, " ++ pyStr v ++ " does not have an expected format"

/-- `expiration(domain)`: resolves the TLD RDAP server, queries it, and
on an `isinstance(..., int)` result returns the day count; on an
`isinstance(..., str)` result falls back once through the registrar
CSV; otherwise raises the classified bad-format failure.  The second
component is the list of RDAP domain queries issued. -/
def expiration (http : String → HResp) (nowSec : Int)
    (services : List (List String × List String))
    (registrarRows : List (List String)) (domain : String) :
    Except PyErr PyVal × List String :=
  match find_rdap_server services domain with
  | .error e => (.error e, [])
  | .ok url =>
    let q := parse_ldap http nowSec domain url
    match q.1 with
    | .error e => (.error e, q.2)
    | .ok raw =>
      match raw[0]? with
      | none => (.error .indexError, q.2)
      | some x =>
        match x with
        | .vInt _ => (.ok x, q.2)
        | .vBool _ => (.ok x, q.2)
        | .vStr name =>
          let s := registrarScan http nowSec domain name registrarRows
          (s.1, q.2 ++ s.2)
        | _ => (.error (.checkError (msgBadFormat x)), q.2)

/-! ### Name normalizer (modelled from the spec) -/

/-- A decimal digit character. -/
def digitChar (k : Nat) : Char :=
  if k == 0 then '0' else if k == 1 then '1' else if k == 2 then '2'
  else if k == 3 then '3' else if k == 4 then '4' else if k == 5 then '5'
  else if k == 6 then '6' else if k == 7 then '7' else if k == 8 then '8'
  else '9'

/-- Seven-digit decimal rendering of a number (enough for any Unicode
code point). -/
def natDigits7 (n : Nat) : List Char :=
  [digitChar (n / 1000000 % 10), digitChar (n / 100000 % 10),
   digitChar (n / 10000 % 10), digitChar (n / 1000 % 10),
   digitChar (n / 100 % 10), digitChar (n / 10 % 10), digitChar (n % 10)]

/-- ASCII test on a character. -/
def isAsciiChar (c : Char) : Bool := c.toNat < 128

/-- Concatenation of the images of a list under a list-valued map. -/
def flatAppend (f : α → List β) : List α → List β
  | [] => []
  | a :: as => f a ++ flatAppend f as

/-- Modelled from the spec: per-label ASCII conversion of the Name
Normalizer (section 4.1).  The implementation (`pyunycode.convert`) is
not part of src/, so the spec contract is modelled: a label that is
already ASCII passes through unchanged, and a label with non-ASCII
characters is replaced by an xn-- prefixed all-ASCII encoding (here a
decimal transcription of the code points standing in for punycode). -/
def toAsciiLabel (g : List Char) : List Char :=
  if g.all isAsciiChar then g
  else 'x' :: 'n' :: '-' :: '-' :: flatAppend (fun c => natDigits7 c.toNat ++ ['-']) g

/-- Modelled from the spec: the Name Normalizer applied to a whole
domain, converting each dot-separated label to its ASCII form
(section 4.1: `pyunycode.convert`, called on line 230 of the script,
is not part of src/). -/
def pyunycodeConvert (domain : String) : String :=
  ⟨joinChar '.' ((splitOnCharL '.' domain.data).map toAsciiLabel)⟩

/-! ### Concrete fixtures for witnesses and counterexamples -/

/-- RDAP body with exactly one expiration event dated
2030-01-01T00:00:00Z. -/
def c1Body : PyVal :=
  .vDict [("events", .vList [.vDict
    [("eventAction", .vStr "expiration"),
     ("eventDate", .vStr "2030-01-01T00:00:00Z")]])]

/-- Network where every RDAP query answers 200 with `c1Body`. -/
def c1Http : String → HResp := fun _ => ⟨200, c1Body⟩

/-- RDAP body with no expiration event and one registrar entity whose
vCard names the registrar Foo. -/
def refBody : PyVal :=
  .vDict [("entities", .vList [.vDict
    [("roles", .vList [.vStr "registrar"]),
     ("vcardArray", .vList [.vStr "vcard", .vList
       [.vList [.vStr "version", .vDict [], .vStr "text", .vStr "4.0"],
        .vList [.vStr "fn", .vDict [], .vStr "text", .vStr "Foo"]]])]])]

/-- RDAP body with zero events and zero entities. -/
def emptyBody : PyVal :=
  .vDict [("events", .vList []), ("entities", .vList [])]

/-- RDAP body with zero expiration events and a registrar entity that
lacks a `vcardArray` field. -/
def noVcardBody : PyVal :=
  .vDict [("events", .vList []),
          ("entities", .vList [.vDict [("roles", .vList [.vStr "registrar"])]])]

/-- RDAP body whose single expiration event lacks an `eventDate`. -/
def c10Body : PyVal :=
  .vDict [("events", .vList [.vDict [("eventAction", .vStr "expiration")]])]

/-- RDAP body with two expiration events. -/
def ambBody : PyVal :=
  .vDict [("events", .vList [
    .vDict [("eventAction", .vStr "expiration"),
            ("eventDate", .vStr "2030-01-01T00:00:00Z")],
    .vDict [("eventAction", .vStr "expiration"),
            ("eventDate", .vStr "2031-01-01T00:00:00Z")]])]

/-- Bootstrap services mapping the com TLD to the registry server. -/
def c2Services : List (List String × List String) :=
  [(["com"], ["https://registry.example/"])]

/-- Registrar CSV rows with the single registrar Foo. -/
def c2Rows : List (List String) :=
  [["9", "Foo", "Accredited", "https://registrar.example/"]]

/-- Network where the registry query returns the registrar referral
body and the registrar query returns HTTP 404. -/
def c2Http : String → HResp := fun url =>
  if url == "https://registry.example/domain/example.com" then ⟨200, refBody⟩
  else if url == "https://registrar.example/domain/example.com" then ⟨404, .vNone⟩
  else ⟨200, .vNone⟩

/-- Network where every RDAP query answers with the registrar referral
body (the registrar record also lacks expiration data). -/
def refHttp : String → HResp := fun _ => ⟨200, refBody⟩

/-- Network where every RDAP query answers with the two-expiration-event
body. -/
def c5Http : String → HResp := fun _ => ⟨200, ambBody⟩

/-! ### Helper lemmas -/

theorem splitOnCharL_ne_nil (sep : Char) : ∀ l, splitOnCharL sep l ≠ []
  | [] => by simp [splitOnCharL]
  | c :: rest => by
    unfold splitOnCharL
    split
    · simp
    · cases h : splitOnCharL sep rest <;> simp

theorem not_sep_of_mem_splitOnCharL (sep : Char) :
    ∀ l g, g ∈ splitOnCharL sep l → sep ∉ g := by
  intro l
  induction l with
  | nil =>
    intro g hg
    simp [splitOnCharL] at hg
    simp [hg]
  | cons c rest ih =>
    intro g hg
    unfold splitOnCharL at hg
    by_cases hc : c == sep
    · rw [if_pos hc] at hg
      rcases List.mem_cons.mp hg with rfl | hmem
      · simp
      · exact ih g hmem
    · rw [if_neg hc] at hg
      have hcne : c ≠ sep := by
        intro hcc
        exact hc (by simp [hcc])
      cases hsplit : splitOnCharL sep rest with
      | nil => exact absurd hsplit (splitOnCharL_ne_nil sep rest)
      | cons g0 gs =>
        rw [hsplit] at hg
        rcases List.mem_cons.mp hg with rfl | hmem
        · intro hsep
          rcases List.mem_cons.mp hsep with hh | hh
          · exact hcne hh.symm
          · exact ih g0 (hsplit ▸ List.mem_cons_self ..) hh
        · exact ih g (hsplit ▸ List.mem_cons_of_mem _ hmem)

theorem joinChar_splitOnCharL (sep : Char) : ∀ l, joinChar sep (splitOnCharL sep l) = l := by
  intro l
  induction l with
  | nil => rfl
  | cons c rest ih =>
    unfold splitOnCharL
    by_cases hc : c == sep
    · rw [if_pos hc]
      have hcc : c = sep := by simpa using hc
      cases hsplit : splitOnCharL sep rest with
      | nil => exact absurd hsplit (splitOnCharL_ne_nil sep rest)
      | cons g0 gs =>
        rw [hsplit] at ih
        simp [joinChar, ih, hcc]
    · rw [if_neg hc]
      cases hsplit : splitOnCharL sep rest with
      | nil => exact absurd hsplit (splitOnCharL_ne_nil sep rest)
      | cons g0 gs =>
        rw [hsplit] at ih
        cases gs with
        | nil => simpa [joinChar] using ih
        | cons g1 gs1 => simpa [joinChar] using ih

theorem splitOnCharL_no_sep (sep : Char) :
    ∀ g, sep ∉ g → splitOnCharL sep g = [g] := by
  intro g
  induction g with
  | nil => intro _; rfl
  | cons c rest ih =>
    intro h
    have hc : (c == sep) = false := by
      simp only [beq_eq_false_iff_ne]
      intro hcc
      exact h (hcc ▸ List.mem_cons_self ..)
    have hrest : sep ∉ rest := fun hmem => h (List.mem_cons_of_mem _ hmem)
    unfold splitOnCharL
    rw [hc, ih hrest]
    simp

theorem splitOnCharL_append_sep (sep : Char) :
    ∀ g t, sep ∉ g → splitOnCharL sep (g ++ sep :: t) = g :: splitOnCharL sep t := by
  intro g
  induction g with
  | nil =>
    intro t _
    simp [splitOnCharL]
  | cons c rest ih =>
    intro t h
    have hc : (c == sep) = false := by
      simp only [beq_eq_false_iff_ne]
      intro hcc
      exact h (hcc ▸ List.mem_cons_self ..)
    have hrest : sep ∉ rest := fun hmem => h (List.mem_cons_of_mem _ hmem)
    simp only [List.cons_append]
    conv_lhs => rw [splitOnCharL]
    rw [ih t hrest, hc]
    simp

theorem splitOnCharL_joinChar (sep : Char) :
    ∀ gs, gs ≠ [] → (∀ g ∈ gs, sep ∉ g) →
      splitOnCharL sep (joinChar sep gs) = gs := by
  intro gs
  induction gs with
  | nil => intro h; exact absurd rfl h
  | cons g rest ih =>
    intro _ hall
    cases rest with
    | nil =>
      simp only [joinChar]
      exact splitOnCharL_no_sep sep g (hall g (List.mem_cons_self ..))
    | cons g1 rest1 =>
      have hjoin : joinChar sep (g :: g1 :: rest1) = g ++ sep :: joinChar sep (g1 :: rest1) := rfl
      rw [hjoin, splitOnCharL_append_sep sep g _ (hall g (List.mem_cons_self ..)),
        ih (by simp) (fun x hx => hall x (List.mem_cons_of_mem _ hx))]

theorem mapSelf {α : Type} (f : α → α) :
    ∀ l : List α, (∀ a ∈ l, f a = a) → l.map f = l := by
  intro l
  induction l with
  | nil => intro _; rfl
  | cons a rest ih =>
    intro h
    simp only [List.map_cons, h a (List.mem_cons_self ..),
      ih (fun x hx => h x (List.mem_cons_of_mem _ hx))]

theorem all_of_mem_splitOnCharL (sep : Char) (p : Char → Bool) :
    ∀ l, l.all p = true → ∀ g ∈ splitOnCharL sep l, g.all p = true := by
  intro l
  induction l with
  | nil =>
    intro _ g hg
    simp [splitOnCharL] at hg
    simp [hg]
  | cons c rest ih =>
    intro hall g hg
    have hc : p c = true := by
      have := hall
      simp [List.all_cons] at this
      exact this.1
    have hrest : rest.all p = true := by
      have := hall
      simp [List.all_cons] at this
      simpa using this.2
    unfold splitOnCharL at hg
    by_cases hcs : c == sep
    · rw [if_pos hcs] at hg
      rcases List.mem_cons.mp hg with rfl | hmem
      · rfl
      · exact ih hrest g hmem
    · rw [if_neg hcs] at hg
      cases hsplit : splitOnCharL sep rest with
      | nil => exact absurd hsplit (splitOnCharL_ne_nil sep rest)
      | cons g0 gs =>
        rw [hsplit] at hg
        rcases List.mem_cons.mp hg with rfl | hmem
        · have hg0 : g0.all p = true := ih hrest g0 (hsplit ▸ List.mem_cons_self ..)
          simp [List.all_cons, hc, hg0]
        · exact ih hrest g (hsplit ▸ List.mem_cons_of_mem _ hmem)

theorem digitChar_ok (k : Nat) : (digitChar k).toNat < 128 ∧ digitChar k ≠ '.' := by
  unfold digitChar
  split_ifs <;> exact ⟨by decide, by decide⟩

theorem mem_flatAppend {α β : Type} (f : α → List β) :
    ∀ l (b : β), b ∈ flatAppend f l → ∃ a ∈ l, b ∈ f a := by
  intro l
  induction l with
  | nil => intro b hb; simp [flatAppend] at hb
  | cons a rest ih =>
    intro b hb
    unfold flatAppend at hb
    rcases List.mem_append.mp hb with h | h
    · exact ⟨a, List.mem_cons_self .., h⟩
    · obtain ⟨a1, ha1, hb1⟩ := ih b h
      exact ⟨a1, List.mem_cons_of_mem _ ha1, hb1⟩

theorem natDigits7_ok (n : Nat) : ∀ c ∈ natDigits7 n, c.toNat < 128 ∧ c ≠ '.' := by
  intro c hc
  simp only [natDigits7, List.mem_cons, List.not_mem_nil, or_false] at hc
  rcases hc with rfl | rfl | rfl | rfl | rfl | rfl | rfl <;> exact digitChar_ok _

theorem toAsciiLabel_all_ascii (g : List Char) :
    (toAsciiLabel g).all isAsciiChar = true := by
  unfold toAsciiLabel
  split
  · assumption
  · simp only [List.all_cons, Bool.and_eq_true]
    refine ⟨by decide, by decide, by decide, by decide, ?_⟩
    rw [List.all_eq_true]
    intro c hc
    obtain ⟨a, _, hca⟩ := mem_flatAppend _ g c hc
    rcases List.mem_append.mp hca with h | h
    · exact decide_eq_true (natDigits7_ok _ c h).1
    · rw [List.mem_singleton.mp h]; decide

theorem toAsciiLabel_no_dot (g : List Char) (hg : '.' ∉ g) :
    '.' ∉ toAsciiLabel g := by
  unfold toAsciiLabel
  split
  · exact hg
  · intro hmem
    rcases List.mem_cons.mp hmem with h | hmem; · exact absurd h (by decide)
    rcases List.mem_cons.mp hmem with h | hmem; · exact absurd h (by decide)
    rcases List.mem_cons.mp hmem with h | hmem; · exact absurd h (by decide)
    rcases List.mem_cons.mp hmem with h | hmem; · exact absurd h (by decide)
    obtain ⟨a, _, hca⟩ := mem_flatAppend _ g _ hmem
    rcases List.mem_append.mp hca with h | h
    · exact (natDigits7_ok _ _ h).2 rfl
    · exact absurd (List.mem_singleton.mp h) (by decide)

theorem toAsciiLabel_of_ascii (g : List Char) (h : g.all isAsciiChar = true) :
    toAsciiLabel g = g := by
  unfold toAsciiLabel
  rw [if_pos h]

theorem toAsciiLabel_idem (g : List Char) :
    toAsciiLabel (toAsciiLabel g) = toAsciiLabel g :=
  toAsciiLabel_of_ascii _ (toAsciiLabel_all_ascii g)

theorem parse_ldap_queries (http : String → HResp) (nowSec : Int)
    (domain rdap_server : String) :
    (parse_ldap http nowSec domain rdap_server).2 = [rdapUrl rdap_server domain] := rfl

theorem parse_ldap_other_status (http : String → HResp) (nowSec : Int)
    (domain rdap_server : String)
    (h1 : (http (rdapUrl rdap_server domain)).status ≠ 403)
    (h2 : (http (rdapUrl rdap_server domain)).status ≠ 404)
    (h3 : (http (rdapUrl rdap_server domain)).status ≠ 409)
    (h4 : (http (rdapUrl rdap_server domain)).status ≠ 503) :
    (parse_ldap http nowSec domain rdap_server).1 =
      parse_ldap_body nowSec (http (rdapUrl rdap_server domain)).body := by
  unfold parse_ldap
  simp only [beq_eq_false_iff_ne.mpr h1, beq_eq_false_iff_ne.mpr h2,
    beq_eq_false_iff_ne.mpr h3, beq_eq_false_iff_ne.mpr h4]
  simp

theorem registrarScan_append (http : String → HResp) (nowSec : Int)
    (domain name : String) (pre rows : List (List String))
    (hpre : ∀ r ∈ pre, ∃ f0 f1 frest,
      r = f0 :: f1 :: frest ∧ pyLower f1 ≠ pyLower name) :
    registrarScan http nowSec domain name (pre ++ rows) =
      registrarScan http nowSec domain name rows := by
  induction pre with
  | nil => rfl
  | cons r pre ih =>
    obtain ⟨f0, f1, frest, rfl, hne⟩ := hpre r (List.mem_cons_self ..)
    have hbeq : (pyLower f1 == pyLower name) = false := beq_eq_false_iff_ne.mpr hne
    simp only [List.cons_append]
    conv_lhs => rw [registrarScan]
    simp only [List.getElem?_cons_succ, List.getElem?_cons_zero, hbeq]
    exact ih (fun x hx => hpre x (List.mem_cons_of_mem _ hx))

theorem fdiv_day_count (t : Int) (h0 : 0 ≤ t) (h1 : t < 86400) :
    Int.fdiv (64029139200 - (64026460800 + t)) 86400 =
      if t = 0 then 31 else 30 := by
  rw [Int.fdiv_eq_ediv _ (by norm_num)]
  rcases eq_or_ne t 0 with rfl | hne
  · norm_num
  · rw [if_neg hne]
    omega

theorem exceptBind_ok {α β : Type} (a : α) (f : α → Except PyErr β) :
    (Except.ok a : Except PyErr α) >>= f = f a := rfl

theorem exceptBind_error {α β : Type} (e : PyErr) (f : α → Except PyErr β) :
    (Except.error e : Except PyErr α) >>= f = .error e := rfl

theorem parse_ldap_body_two (nowSec : Int) (body a b : PyVal) (l : List PyVal)
    (hraw : rawExpirationOf body = .ok (a :: b :: l)) :
    parse_ldap_body nowSec body =
      .error (.checkError (pyStr (.vList (a :: b :: l)) ++ " is too long")) := by
  unfold parse_ldap_body
  rw [hraw, exceptBind_ok]

theorem expiration_q1_error (http : String → HResp) (nowSec : Int)
    (services : List (List String × List String)) (rows : List (List String))
    (domain url : String) (e : PyErr)
    (hfind : find_rdap_server services domain = .ok url)
    (herr : (parse_ldap http nowSec domain url).1 = .error e) :
    expiration http nowSec services rows domain = (.error e, [rdapUrl url domain]) := by
  unfold expiration
  rw [hfind]
  simp only [herr, parse_ldap_queries]

theorem expiration_referral (http : String → HResp) (nowSec : Int)
    (services : List (List String × List String)) (rows : List (List String))
    (domain url1 name : String) (rest1 : List PyVal)
    (hfind : find_rdap_server services domain = .ok url1)
    (hq1 : (parse_ldap http nowSec domain url1).1 = .ok (.vStr name :: rest1)) :
    expiration http nowSec services rows domain =
      ((registrarScan http nowSec domain name rows).1,
       rdapUrl url1 domain :: (registrarScan http nowSec domain name rows).2) := by
  unfold expiration
  rw [hfind]
  simp only [hq1, List.getElem?_cons_zero, parse_ldap_queries, List.singleton_append]

theorem registrarScan_row_nonint (http : String → HResp) (nowSec : Int)
    (domain name field1 url2 : String) (row : List String)
    (rest : List (List String)) (x : PyVal) (r2 : List PyVal)
    (hrow1 : row[1]? = some field1)
    (hmatch : pyLower field1 = pyLower name)
    (hrow3 : row[3]? = some url2)
    (hq2 : (parse_ldap http nowSec domain url2).1 = .ok (x :: r2))
    (hx : isIntPy x = false) :
    registrarScan http nowSec domain name (row :: rest) =
      (.error (.checkError (msgNeither url2)), [rdapUrl url2 domain]) := by
  conv_lhs => rw [registrarScan]
  simp only [hrow1, hrow3, beq_iff_eq.mpr hmatch, if_true, hq2, hx,
    List.getElem?_cons_zero, parse_ldap_queries, Bool.false_eq_true, if_false]

theorem registrarScan_row_int (http : String → HResp) (nowSec : Int)
    (domain name field1 url2 : String) (row : List String)
    (rest : List (List String)) (x : PyVal) (r2 : List PyVal)
    (hrow1 : row[1]? = some field1)
    (hmatch : pyLower field1 = pyLower name)
    (hrow3 : row[3]? = some url2)
    (hq2 : (parse_ldap http nowSec domain url2).1 = .ok (x :: r2))
    (hx : isIntPy x = true) :
    registrarScan http nowSec domain name (row :: rest) =
      (.ok x, [rdapUrl url2 domain]) := by
  conv_lhs => rw [registrarScan]
  simp only [hrow1, hrow3, beq_iff_eq.mpr hmatch, if_true, hq2, hx,
    List.getElem?_cons_zero, parse_ldap_queries]

theorem registrarScan_row_error (http : String → HResp) (nowSec : Int)
    (domain name field1 url2 : String) (row : List String)
    (rest : List (List String)) (e : PyErr)
    (hrow1 : row[1]? = some field1)
    (hmatch : pyLower field1 = pyLower name)
    (hrow3 : row[3]? = some url2)
    (hq2 : (parse_ldap http nowSec domain url2).1 = .error e) :
    registrarScan http nowSec domain name (row :: rest) =
      (.error e, [rdapUrl url2 domain]) := by
  conv_lhs => rw [registrarScan]
  simp only [hrow1, hrow3, beq_iff_eq.mpr hmatch, if_true, hq2,
    parse_ldap_queries]

theorem registrarScan_row_short (http : String → HResp) (nowSec : Int)
    (domain name : String) (row : List String) (rest : List (List String))
    (hshort : row[1]? = none) :
    registrarScan http nowSec domain name (row :: rest) =
      (.error .indexError, []) := by
  conv_lhs => rw [registrarScan]
  rw [hshort]

theorem registrarScan_row_empty (http : String → HResp) (nowSec : Int)
    (domain name field1 url2 : String) (row : List String)
    (rest : List (List String))
    (hrow1 : row[1]? = some field1)
    (hmatch : pyLower field1 = pyLower name)
    (hrow3 : row[3]? = some url2)
    (hq2 : (parse_ldap http nowSec domain url2).1 = .ok []) :
    registrarScan http nowSec domain name (row :: rest) =
      (.error .indexError, [rdapUrl url2 domain]) := by
  conv_lhs => rw [registrarScan]
  simp only [hrow1, hrow3, beq_iff_eq.mpr hmatch, if_true, hq2,
    List.getElem?_nil, parse_ldap_queries]

/-! ### Claim theorems -/

/-- C1 (amended): for a response with exactly one expiration event dated
2030-01-01T00:00:00Z and a resolution instant on the calendar day
2029-12-01 (offset `t` seconds into the day), the lookup returns the
floor of the difference in days: 31 when the instant is exactly
midnight, and 30 for every later instant of that day — not 31
throughout the day as the original claim states. -/
theorem C1_calendar_day_count (t : Int) (h0 : 0 ≤ t) (h1 : t < 86400) :
    (parse_ldap c1Http ((toordinal 2029 12 1 : Int) * 86400 + t)
      "example.com" "https://rdap.example/").1 =
      .ok [.vInt (if t = 0 then 31 else 30)] := by
  have heval : (parse_ldap c1Http ((toordinal 2029 12 1 : Int) * 86400 + t)
      "example.com" "https://rdap.example/").1 =
      .ok [.vInt (Int.fdiv (64029139200 - (64026460800 + t)) 86400)] := rfl
  rw [heval, fdiv_day_count t h0 h1]

/-- C1 witness: at one second past midnight of 2029-12-01 the returned
day count is 30. -/
theorem C1_witness :
    (parse_ldap c1Http ((toordinal 2029 12 1 : Int) * 86400 + 1)
      "example.com" "https://rdap.example/").1 = .ok [.vInt 30] := by
  have h := C1_calendar_day_count 1 (by norm_num) (by norm_num)
  simpa using h

/-- C1 counterexample: at noon of 2029-12-01 (an instant on that
calendar day) the lookup returns 30 days, not the 31 the claim
asserts for every instant of the day. -/
theorem C1_counterexample :
    (parse_ldap c1Http ((toordinal 2029 12 1 : Int) * 86400 + 43200)
      "example.com" "https://rdap.example/").1 = .ok [.vInt 30] ∧
    (parse_ldap c1Http ((toordinal 2029 12 1 : Int) * 86400 + 43200)
      "example.com" "https://rdap.example/").1 ≠ .ok [.vInt 31] := by
  constructor
  · rfl
  · intro h
    have h30 : (parse_ldap c1Http ((toordinal 2029 12 1 : Int) * 86400 + 43200)
        "example.com" "https://rdap.example/").1 = .ok [.vInt 30] := rfl
    rw [h30] at h
    simp at h

/-- C2 (amended): when the registry query returns a registrar referral
and the registrar directory scan reaches a matching row yielding a URL,
the resolver issues exactly one further RDAP query, against that
registrar URL with the original domain.  Contrary to the original
claim, only one of the no-day-count outcomes of that second query is
classified as no-expiration-after-fallback: parsing to a nonempty list
whose first element is not an integer.  An integer day count is
returned; a failure of the second query itself propagates unchanged;
and parsing to an empty list (a registrar body with no expiration
event and no fn line in the vCard) escapes as an unclassified
IndexError from `registrar_expiration[0]`.  In every one of the four
cases exactly two RDAP queries are issued — never a third. -/
theorem C2_single_fallback_hop (http : String → HResp) (nowSec : Int)
    (services : List (List String × List String))
    (pre post : List (List String)) (row : List String)
    (domain url1 name url2 field1 : String) (rest1 : List PyVal)
    (hfind : find_rdap_server services domain = .ok url1)
    (hq1 : (parse_ldap http nowSec domain url1).1 = .ok (.vStr name :: rest1))
    (hpre : ∀ r ∈ pre, ∃ f0 f1 frest,
      r = f0 :: f1 :: frest ∧ pyLower f1 ≠ pyLower name)
    (hrow1 : row[1]? = some field1)
    (hmatch : pyLower field1 = pyLower name)
    (hrow3 : row[3]? = some url2) :
    (∀ x r2, (parse_ldap http nowSec domain url2).1 = .ok (x :: r2) →
      isIntPy x = false →
      expiration http nowSec services (pre ++ row :: post) domain =
        (.error (.checkError (msgNeither url2)),
         [rdapUrl url1 domain, rdapUrl url2 domain])) ∧
    (∀ x r2, (parse_ldap http nowSec domain url2).1 = .ok (x :: r2) →
      isIntPy x = true →
      expiration http nowSec services (pre ++ row :: post) domain =
        (.ok x, [rdapUrl url1 domain, rdapUrl url2 domain])) ∧
    (∀ e, (parse_ldap http nowSec domain url2).1 = .error e →
      expiration http nowSec services (pre ++ row :: post) domain =
        (.error e, [rdapUrl url1 domain, rdapUrl url2 domain])) ∧
    ((parse_ldap http nowSec domain url2).1 = .ok [] →
      expiration http nowSec services (pre ++ row :: post) domain =
        (.error .indexError, [rdapUrl url1 domain, rdapUrl url2 domain])) := by
  have hexp : expiration http nowSec services (pre ++ row :: post) domain =
      ((registrarScan http nowSec domain name (row :: post)).1,
       rdapUrl url1 domain :: (registrarScan http nowSec domain name (row :: post)).2) := by
    rw [expiration_referral http nowSec services (pre ++ row :: post) domain
      url1 name rest1 hfind hq1,
      registrarScan_append http nowSec domain name pre (row :: post) hpre]
  refine ⟨?_, ?_, ?_, ?_⟩
  · intro x r2 hq2 hx
    rw [hexp, registrarScan_row_nonint http nowSec domain name field1 url2 row
      post x r2 hrow1 hmatch hrow3 hq2 hx]
  · intro x r2 hq2 hx
    rw [hexp, registrarScan_row_int http nowSec domain name field1 url2 row
      post x r2 hrow1 hmatch hrow3 hq2 hx]
  · intro e hq2
    rw [hexp, registrarScan_row_error http nowSec domain name field1 url2 row
      post e hrow1 hmatch hrow3 hq2]
  · intro hq2
    rw [hexp, registrarScan_row_empty http nowSec domain name field1 url2 row
      post hrow1 hmatch hrow3 hq2]

/-- C2 witness: with a registry referral to registrar Foo and a
registrar record that again lacks expiration data, resolution ends with
the no-expiration-after-fallback failure after exactly two queries, the
second one against the registrar URL with the original domain. -/
theorem C2_witness :
    expiration refHttp 0 c2Services c2Rows "example.com" =
      (.error (.checkError (msgNeither "https://registrar.example/")),
       ["https://registry.example/domain/example.com",
        "https://registrar.example/domain/example.com"]) := by
  have h := (C2_single_fallback_hop refHttp 0 c2Services [] []
    ["9", "Foo", "Accredited", "https://registrar.example/"]
    "example.com" "https://registry.example/" "Foo"
    "https://registrar.example/" "Foo" []
    rfl rfl (by simp) rfl rfl rfl).1 (.vStr "Foo") [] rfl rfl
  simpa [c2Rows, rdapUrl] using h

/-- C2 counterexample: when the second (registrar) query answers
HTTP 404, resolution terminates with the classified domain-not-found
failure of that query — not with the no-expiration-after-fallback
failure that the claim asserts for every second query lacking a day
count. -/
theorem C2_counterexample :
    expiration c2Http 0 c2Services c2Rows "example.com" =
      (.error (.checkError (msg404 "example.com")),
       ["https://registry.example/domain/example.com",
        "https://registrar.example/domain/example.com"]) ∧
    msg404 "example.com" ≠ msgNeither "https://registrar.example/" :=
  ⟨rfl, by decide⟩

/-- C3 (amended): for a parseable body with zero expiration events, the
lookup does not fail with a classified error: with zero registrar-role
entities it raises an unclassified IndexError (indexing the empty
registrar list), and with a first registrar entity whose vCard
structure is unparseable (no vcardArray, collected as the False
placeholder) it raises an unclassified TypeError. -/
theorem C3_no_registrar_unclassified (nowSec : Int) (b1 b2 : PyVal)
    (rest : List PyVal)
    (h1e : rawExpirationOf b1 = .ok [])
    (h1r : rawRegistrarOf b1 = .ok [])
    (h2e : rawExpirationOf b2 = .ok [])
    (h2r : rawRegistrarOf b2 = .ok (.vBool false :: rest)) :
    (parse_ldap_body nowSec b1 = .error .indexError ∧
      isCheckError (parse_ldap_body nowSec b1) = false) ∧
    (parse_ldap_body nowSec b2 = .error .typeError ∧
      isCheckError (parse_ldap_body nowSec b2) = false) := by
  have hb1 : parse_ldap_body nowSec b1 = .error .indexError := by
    unfold parse_ldap_body
    rw [h1e, exceptBind_ok]
    show (do
      let raw_registrar ← rawRegistrarOf b1
      let r0 ← match raw_registrar[0]? with
               | some x => pure x
               | none => Except.error PyErr.indexError
      let vc1 ← pyIndex r0 1
      let lines ← pyIterList vc1
      fnLoop lines) = Except.error PyErr.indexError
    rw [h1r, exceptBind_ok]
    rfl
  have hb2 : parse_ldap_body nowSec b2 = .error .typeError := by
    unfold parse_ldap_body
    rw [h2e, exceptBind_ok]
    show (do
      let raw_registrar ← rawRegistrarOf b2
      let r0 ← match raw_registrar[0]? with
               | some x => pure x
               | none => Except.error PyErr.indexError
      let vc1 ← pyIndex r0 1
      let lines ← pyIterList vc1
      fnLoop lines) = Except.error PyErr.typeError
    rw [h2r, exceptBind_ok]
    simp only [List.getElem?_cons_zero]
    rfl
  exact ⟨⟨hb1, by rw [hb1]; rfl⟩, ⟨hb2, by rw [hb2]; rfl⟩⟩

/-- C3 witness: concrete bodies with zero expiration events — one with
zero entities, one with a registrar entity lacking a vcardArray. -/
theorem C3_witness :
    (parse_ldap_body 0 emptyBody = .error .indexError ∧
      isCheckError (parse_ldap_body 0 emptyBody) = false) ∧
    (parse_ldap_body 0 noVcardBody = .error .typeError ∧
      isCheckError (parse_ldap_body 0 noVcardBody) = false) :=
  C3_no_registrar_unclassified 0 emptyBody noVcardBody [] rfl rfl rfl rfl

/-- C3 counterexample: a body with zero expiration events and zero
registrar entities makes the lookup raise an unclassified IndexError,
not the classified no-expiration-and-no-registrar failure the claim
asserts. -/
theorem C3_counterexample :
    parse_ldap_body 0 emptyBody = .error .indexError ∧
    isCheckError (parse_ldap_body 0 emptyBody) = false :=
  ⟨rfl, rfl⟩

/-- C4: the claim and the spec say a registrar name absent from the CSV
fails with the classified registrar-not-found error, and the source
indeed reaches the corresponding raise statement — but building its
message evaluates an url attribute on the decoded CSV string, so the
code actually raises an unclassified AttributeError.  Evaluating the
embedded code on a referral to registrar Foo with a CSV knowing only
registrar Bar exhibits the bug. -/
theorem C4_registrar_not_found_bug :
    expiration c2Http 0 c2Services
        [["9", "Bar", "Accredited", "https://registrar.example/"]] "example.com" =
      (.error .attributeError, ["https://registry.example/domain/example.com"]) ∧
    isCheckError (expiration c2Http 0 c2Services
        [["9", "Bar", "Accredited", "https://registrar.example/"]] "example.com").1 = false :=
  ⟨rfl, rfl⟩

/-- C5: a parseable body with two or more expiration events makes
resolution fail with the classified too-long (ambiguous expiration
data) error, and only the single registry query is issued — no
registrar fallback. -/
theorem C5_ambiguous_expiration (http : String → HResp) (nowSec : Int)
    (services : List (List String × List String)) (rows : List (List String))
    (domain url : String) (a b : PyVal) (l : List PyVal)
    (hfind : find_rdap_server services domain = .ok url)
    (h403 : (http (rdapUrl url domain)).status ≠ 403)
    (h404 : (http (rdapUrl url domain)).status ≠ 404)
    (h409 : (http (rdapUrl url domain)).status ≠ 409)
    (h503 : (http (rdapUrl url domain)).status ≠ 503)
    (hraw : rawExpirationOf (http (rdapUrl url domain)).body = .ok (a :: b :: l)) :
    expiration http nowSec services rows domain =
      (.error (.checkError (pyStr (.vList (a :: b :: l)) ++ " is too long")),
       [rdapUrl url domain]) := by
  have herr : (parse_ldap http nowSec domain url).1 =
      .error (.checkError (pyStr (.vList (a :: b :: l)) ++ " is too long")) := by
    rw [parse_ldap_other_status http nowSec domain url h403 h404 h409 h503,
      parse_ldap_body_two nowSec _ a b l hraw]
  exact expiration_q1_error http nowSec services rows domain url _ hfind herr

/-- C5 witness: a body with two expiration events fails with the
too-long error after exactly one query. -/
theorem C5_witness :
    expiration c5Http 0 c2Services [] "example.com" =
      (.error (.checkError (pyStr (.vList [.vStr "2030-01-01T00:00:00Z",
          .vStr "2031-01-01T00:00:00Z"]) ++ " is too long")),
       ["https://registry.example/domain/example.com"]) :=
  C5_ambiguous_expiration c5Http 0 c2Services [] "example.com"
    "https://registry.example/" (.vStr "2030-01-01T00:00:00Z")
    (.vStr "2031-01-01T00:00:00Z") [] rfl
    (by decide) (by decide) (by decide) (by decide) rfl

/-- C6: a domain whose rightmost dot-separated label is absent from the
(nonempty) flattened bootstrap mapping fails with the classified
no-RDAP-server-for-TLD error, and no RDAP domain query is issued.  The
non-emptiness hypothesis is needed because an empty flattened mapping
makes the source raise an unclassified AttributeError instead
(`df.name` on a column-less DataFrame). -/
theorem C6_no_rdap_server_for_tld (http : String → HResp) (nowSec : Int)
    (services : List (List String × List String)) (rows : List (List String))
    (domain : String) (entries : List (String × String))
    (hbuild : buildList2dict services = .ok entries)
    (hne : entries ≠ [])
    (habsent : ∀ e ∈ entries, e.1 ≠ tldOf domain) :
    expiration http nowSec services rows domain =
      (.error (.checkError (msgNoTld (tldOf domain))), []) := by
  obtain ⟨e0, erest, rfl⟩ := List.exists_cons_of_ne_nil hne
  have hnone : (e0 :: erest).find? (fun e => e.1 == tldOf domain) = none := by
    rw [List.find?_eq_none]
    intro e he
    simpa using habsent e he
  have hfind : find_rdap_server services domain =
      .error (.checkError (msgNoTld (tldOf domain))) := by
    unfold find_rdap_server
    rw [hbuild, exceptBind_ok]
    simp only [hnone]
  unfold expiration
  rw [hfind]

/-- C6 witness: the net TLD is absent from a bootstrap mapping knowing
only com, so resolution fails with the classified error and issues no
query. -/
theorem C6_witness :
    expiration c2Http 0 c2Services [] "foo.net" =
      (.error (.checkError (msgNoTld (tldOf "foo.net"))), []) :=
  C6_no_rdap_server_for_tld c2Http 0 c2Services [] "foo.net"
    [("com", "https://registry.example/")] rfl (by simp) (by decide)

/-- C7: the HTTP status code of an RDAP response is classified before
any body parsing: 403, 404, 409 and 503 produce their classified
failures by status alone (the error value does not depend on the body),
and every other status proceeds to success-path body parsing. -/
theorem C7_status_classification (http : String → HResp) (nowSec : Int)
    (domain rdap_server : String) :
    ((http (rdapUrl rdap_server domain)).status = 403 →
      (parse_ldap http nowSec domain rdap_server).1 =
        .error (.checkError (msg403 rdap_server))) ∧
    ((http (rdapUrl rdap_server domain)).status = 404 →
      (parse_ldap http nowSec domain rdap_server).1 =
        .error (.checkError (msg404 domain))) ∧
    ((http (rdapUrl rdap_server domain)).status = 409 →
      (parse_ldap http nowSec domain rdap_server).1 =
        .error (.checkError (msg409 rdap_server))) ∧
    ((http (rdapUrl rdap_server domain)).status = 503 →
      (parse_ldap http nowSec domain rdap_server).1 =
        .error (.checkError (msg503 rdap_server))) ∧
    ((http (rdapUrl rdap_server domain)).status ∉ ([403, 404, 409, 503] : List Nat) →
      (parse_ldap http nowSec domain rdap_server).1 =
        parse_ldap_body nowSec (http (rdapUrl rdap_server domain)).body) := by
  refine ⟨?_, ?_, ?_, ?_, ?_⟩
  · intro h
    unfold parse_ldap
    simp [h]
  · intro h
    unfold parse_ldap
    simp [h]
  · intro h
    unfold parse_ldap
    simp [h]
  · intro h
    unfold parse_ldap
    simp [h]
  · intro h
    simp only [List.mem_cons, List.not_mem_nil, or_false, not_or] at h
    obtain ⟨h1, h2, h3, h4⟩ := h
    exact parse_ldap_other_status http nowSec domain rdap_server h1 h2 h3 h4

/-- C7 witness: an HTTP 404 on the registrar server yields the
classified domain-not-found failure. -/
theorem C7_witness :
    (parse_ldap c2Http 0 "example.com" "https://registrar.example/").1 =
      .error (.checkError (msg404 "example.com")) :=
  (C7_status_classification c2Http 0 "example.com" "https://registrar.example/").2.1 rfl

/-- C8 (amended): the registrar CSV scan does not skip malformed rows:
when the scan reaches a row lacking the name field (fewer than two
fields), indexing the row raises an unclassified IndexError that aborts
the whole resolution, contrary to the claimed tolerant parsing. -/
theorem C8_malformed_row_aborts (http : String → HResp) (nowSec : Int)
    (services : List (List String × List String))
    (pre post : List (List String)) (row : List String)
    (domain url1 name : String) (rest1 : List PyVal)
    (hfind : find_rdap_server services domain = .ok url1)
    (hq1 : (parse_ldap http nowSec domain url1).1 = .ok (.vStr name :: rest1))
    (hpre : ∀ r ∈ pre, ∃ f0 f1 frest,
      r = f0 :: f1 :: frest ∧ pyLower f1 ≠ pyLower name)
    (hshort : row[1]? = none) :
    expiration http nowSec services (pre ++ row :: post) domain =
      (.error .indexError, [rdapUrl url1 domain]) := by
  rw [expiration_referral http nowSec services (pre ++ row :: post) domain
    url1 name rest1 hfind hq1,
    registrarScan_append http nowSec domain name pre (row :: post) hpre,
    registrarScan_row_short http nowSec domain name row post hshort]

/-- C8 witness: a CSV whose only row has a single field aborts the
fallback with IndexError. -/
theorem C8_witness :
    expiration refHttp 0 c2Services [["x"]] "example.com" =
      (.error .indexError, ["https://registry.example/domain/example.com"]) := by
  have h := C8_malformed_row_aborts refHttp 0 c2Services [] [] ["x"]
    "example.com" "https://registry.example/" "Foo" [] rfl rfl (by simp) rfl
  simpa using h

/-- C8 counterexample: on a registrar CSV containing one malformed
(single-field) row, the load does not skip the row — row indexing
raises an unclassified IndexError that escapes the resolution. -/
theorem C8_counterexample :
    expiration c2Http 0 c2Services [["x"]] "example.com" =
      (.error .indexError, ["https://registry.example/domain/example.com"]) ∧
    isCheckError (expiration c2Http 0 c2Services [["x"]] "example.com").1 = false :=
  ⟨rfl, rfl⟩

/-- C9: the name normalizer (modelled from the spec, section 4.1) is
the identity on every already-ASCII domain string and is idempotent on
every domain string. -/
theorem C9_normalizer_identity_idempotent (s : String) :
    (s.data.all isAsciiChar = true → pyunycodeConvert s = s) ∧
    pyunycodeConvert (pyunycodeConvert s) = pyunycodeConvert s := by
  constructor
  · intro h
    cases s with
    | mk d =>
      show String.mk (joinChar '.' (((splitOnCharL '.' d).map toAsciiLabel))) = String.mk d
      rw [mapSelf toAsciiLabel (splitOnCharL '.' d) (fun g hg =>
        toAsciiLabel_of_ascii g (all_of_mem_splitOnCharL '.' isAsciiChar d h g hg))]
      rw [joinChar_splitOnCharL]
  · have hne : (splitOnCharL '.' s.data).map toAsciiLabel ≠ [] := by
      intro hnil
      exact splitOnCharL_ne_nil '.' s.data (List.map_eq_nil_iff.mp hnil)
    have hnd : ∀ g ∈ (splitOnCharL '.' s.data).map toAsciiLabel, '.' ∉ g := by
      intro g hg
      obtain ⟨g0, hg0, rfl⟩ := List.mem_map.mp hg
      exact toAsciiLabel_no_dot g0 (not_sep_of_mem_splitOnCharL '.' s.data g0 hg0)
    show String.mk (joinChar '.'
        ((splitOnCharL '.' (String.mk (joinChar '.'
          ((splitOnCharL '.' s.data).map toAsciiLabel))).data).map toAsciiLabel)) =
      String.mk (joinChar '.' ((splitOnCharL '.' s.data).map toAsciiLabel))
    rw [show (String.mk (joinChar '.' ((splitOnCharL '.' s.data).map toAsciiLabel))).data =
        joinChar '.' ((splitOnCharL '.' s.data).map toAsciiLabel) from rfl,
      splitOnCharL_joinChar '.' _ hne hnd,
      mapSelf toAsciiLabel _ (fun g hg => by
        obtain ⟨g0, _, rfl⟩ := List.mem_map.mp hg
        exact toAsciiLabel_idem g0)]

/-- C9 witness: the already-ASCII domain example.com normalizes to
itself and renormalizing changes nothing. -/
theorem C9_witness :
    pyunycodeConvert "example.com" = "example.com" ∧
    pyunycodeConvert (pyunycodeConvert "example.com") = pyunycodeConvert "example.com" :=
  ⟨(C9_normalizer_identity_idempotent "example.com").1 (by decide),
   (C9_normalizer_identity_idempotent "example.com").2⟩

/-- C10: a parseable body whose single expiration event lacks an
eventDate collects the False placeholder, which flows into the
date-splitting step and raises an unclassified AttributeError (no
classified result or failure). -/
theorem C10_missing_event_date (nowSec : Int) (body : PyVal)
    (h : rawExpirationOf body = .ok [.vBool false]) :
    parse_ldap_body nowSec body = .error .attributeError ∧
    isCheckError (parse_ldap_body nowSec body) = false := by
  have hb : parse_ldap_body nowSec body = .error .attributeError := by
    unfold parse_ldap_body
    rw [h, exceptBind_ok]
    rfl
  exact ⟨hb, by rw [hb]; rfl⟩

/-- C10 witness: a concrete body whose only expiration event has no
eventDate raises AttributeError. -/
theorem C10_witness :
    parse_ldap_body 0 c10Body = .error .attributeError ∧
    isCheckError (parse_ldap_body 0 c10Body) = false :=
  C10_missing_event_date 0 c10Body rfl

end CheckDomain
